import Mathlib

/-!
Shallow embedding of the import/reconciliation engine of `app/erp_import.py`
(classes `SalesImport` and `MarketReturnImport` and the framework around
them).  Monetary quantities are Python `Decimal` values in the source and are
modelled by `Rat`; dates are modelled by `Nat`; invoice numbers, company keys
and the like by `String`.  Report rows carry exactly the fields the import
code reads.
-/

namespace ErpImport

/-- Row of the `SalesRegisterReport` table, with the fields read by
`SalesImport.run_atomic`. -/
structure RegRow where
  company : String
  type : String
  inum : String
  date : Nat
  party_id : String
  ctin : Option String
  amt : Rat
  btpr : Rat
  outpyt : Rat
  ushop : Rat
  pecom : Rat
  other_discount : Rat
  roundoff : Rat
  tcs : Rat
  tds : Rat
  deriving Repr, DecidableEq

/-- Row of the `IkeaGSTR1Report` (inventory / GSTR1) table, with the fields
read by `SalesImport.run_atomic`. -/
structure InvRow where
  company : String
  type : String
  inum : String
  date : Nat
  credit_note_no : String
  original_invoice_no : String
  stock_id : String
  qty : Rat
  rt : Rat
  txval : Rat
  inv_amt : Rat
  ctin : Option String
  deriving Repr, DecidableEq

/-- Row of the `DmgShtReport` table, with the fields read by
`MarketReturnImport.run_atomic`. -/
structure DmgRow where
  company : String
  return_from : String
  type : String
  inum : String
  date : Nat
  party_id : String
  stock_id : String
  qty : Rat
  amt : Rat
  deriving Repr, DecidableEq

/-- Ledger row (`models.Sales`).  Fields not set by a given construction site
default to `0` / `none`, matching the model-field defaults. -/
structure SalesRow where
  company : String
  type : String
  inum : String
  date : Nat
  party_id : String
  ctin : Option String
  amt : Rat
  discount : Rat := 0
  roundoff : Rat := 0
  tcs : Rat := 0
  tds : Rat := 0
  deriving Repr, DecidableEq

/-- Discount line item (`models.Discount`). -/
structure DiscountRow where
  company : String
  bill_id : String
  sub_type : String
  amt : Rat
  deriving Repr, DecidableEq

/-- Inventory line item (`models.Inventory`). -/
structure InvItem where
  company : String
  bill_id : String
  stock_id : String
  qty : Rat
  rt : Rat
  txval : Rat
  deriving Repr, DecidableEq

/-- Stock master row (`models.Stock`), as read by the rate subquery of
`MarketReturnImport.run_atomic`. -/
structure StockRow where
  company : String
  name : String
  rt : Rat
  deriving Repr, DecidableEq

/-- The tables of the tabular store that the two date-ranged importers touch. -/
structure DB where
  sales : List SalesRow
  discounts : List DiscountRow
  inventory : List InvItem
  stock : List StockRow
  deriving Repr, DecidableEq

/-- Stable insertion of an element into a list sorted by `le` (used to model
the `order_by` clauses of the Django querysets). -/
def insertSorted (le : α → α → Bool) (a : α) : List α → List α
  | [] => [a]
  | b :: l => if le a b then a :: b :: l else b :: insertSorted le a l

/-- Stable insertion sort, modelling a Django `order_by` (the database sort is
observed through a stable total order on the sort key). -/
def sortBy (le : α → α → Bool) : List α → List α
  | [] => []
  | a :: l => insertSorted le a (sortBy le l)

/-- Ledger types deleted and re-created by `SalesImport`
(`types = ["sales", "salesreturn", "claimservice"]`). -/
def salesTypes : List String := ["sales", "salesreturn", "claimservice"]

/-- The `sales_qs` queryset: `SalesRegisterReport` rows of the company whose
date lies in the inclusive range `[fromd, tod]`. -/
def regSelect (company : String) (fromd tod : Nat) (rows : List RegRow) : List RegRow :=
  rows.filter fun r => decide (r.company = company ∧ fromd ≤ r.date ∧ r.date ≤ tod)

/-- The `inventory_qs` queryset: `IkeaGSTR1Report` rows of the company whose
date lies in the inclusive range `[fromd, tod]`. -/
def invSelect (company : String) (fromd tod : Nat) (rows : List InvRow) : List InvRow :=
  rows.filter fun r => decide (r.company = company ∧ fromd ≤ r.date ∧ r.date ≤ tod)

/-- Mutation applied to each inventory-side sales-return row:
`obj.inum = obj.credit_note_no; obj.txval = -obj.txval`. -/
def flipInvReturn (r : InvRow) : InvRow :=
  { r with inum := r.credit_note_no, txval := -r.txval }

/-- One step of building `date_original_inum_to_cn`: append the row's credit
note number to the queue keyed by `(date, original_invoice_no)` unless it is
already present (`if obj.inum not in inums`). -/
def addInvToQueues (m : Nat × String → List String) (r : InvRow) :
    Nat × String → List String := fun k =>
  if k = (r.date, r.original_invoice_no) then
    if r.credit_note_no ∈ m k then m k else m k ++ [r.credit_note_no]
  else m k

/-- The `date_original_inum_to_cn` map after the loop over the (sorted)
inventory-side sales-return rows. -/
def buildQueues (rows : List InvRow) : Nat × String → List String :=
  rows.foldl addInvToQueues fun _ => []

/-- The loop over the register-side sales-return rows: negate the roundoff,
then pop the head of the FIFO queue keyed by `(date, inum)` as the resolved
invoice number.  `inums.pop(0)` on an empty queue raises `IndexError`, which
is modelled as an `Except.error` (the diagnostic print just before it does
not stop the pop). -/
def matchReturns (m : Nat × String → List String) :
    List RegRow → Except String (List RegRow)
  | [] => .ok []
  | r :: rs =>
    match m (r.date, r.inum) with
    | [] => .error "IndexError: pop from empty list"
    | cn :: rest =>
      match matchReturns (fun k => if k = (r.date, r.inum) then rest else m k) rs with
      | .ok out => .ok ({ r with roundoff := -r.roundoff, inum := cn } :: out)
      | .error e => .error e

/-- Accumulator shared by `claimservice_txval` and `claimservice_tax`
(a `defaultdict` keyed by invoice number, summed over the loop). -/
def accumBy (f : InvRow → Rat) (rows : List InvRow) : String → Rat :=
  rows.foldl (fun m r => fun i => if i = r.inum then m i + f r else m i) fun _ => 0

/-- `claimservice_txval`: the summed taxable value per invoice number. -/
def claimTxval (rows : List InvRow) : String → Rat :=
  accumBy (fun r => r.txval) rows

/-- Modelled from the spec: `claimservice_tax` sums `2 * txval * rt / 100`
per row; the per-row expression is taken verbatim from the source, the
`Decimal` arithmetic is idealised as exact rational arithmetic. -/
def claimTax (rows : List InvRow) : String → Rat :=
  accumBy (fun r => 2 * r.txval * r.rt / 100) rows

/-- The `distinct("inum")` queryset: keep the first row seen for each invoice
number. -/
def distinctByInumAux (seen : List String) : List InvRow → List InvRow
  | [] => []
  | r :: rs =>
    if r.inum ∈ seen then distinctByInumAux seen rs
    else r :: distinctByInumAux (r.inum :: seen) rs

/-- Representatives of `claimservice_inventory_objs.distinct("inum")`. -/
def distinctByInum (rows : List InvRow) : List InvRow :=
  distinctByInumAux [] rows

/-- `TDS_PERCENT = 2` on `SalesImport`. -/
def TDS_PERCENT : Rat := 2

/-- The synthetic `SalesRegisterReport` object built for one claim-service
invoice (fields not assigned in the constructor call keep their model
defaults, i.e. zero). -/
def mkClaimObj (company : String) (rows : List InvRow) (rep : InvRow) : RegRow :=
  let txval := claimTxval rows rep.inum
  let tax := claimTax rows rep.inum
  let tds := txval * TDS_PERCENT / 100
  { company := company
    type := "claimservice"
    inum := rep.inum
    date := rep.date
    party_id := "HUL"
    ctin := rep.ctin
    amt := txval + tax - tds
    btpr := 0, outpyt := 0, ushop := 0, pecom := 0, other_discount := 0
    roundoff := 0, tcs := 0
    tds := tds }

/-- The `claimservice_objs` list: one synthetic register row per distinct
claim-service invoice number. -/
def claimserviceObjs (company : String) (rows : List InvRow) : List RegRow :=
  (distinctByInum rows).map (mkClaimObj company rows)

/-- The `models.Sales(...)` constructor call of the ledger-emission
generator: negate amount, discounts and TDS, copy roundoff and TCS. -/
def mkSalesEntry (company : String) (qs : RegRow) : SalesRow :=
  { company := company
    type := qs.type
    inum := qs.inum
    date := qs.date
    party_id := qs.party_id
    ctin := qs.ctin
    amt := -qs.amt
    discount := -(qs.btpr + qs.outpyt + qs.ushop + qs.pecom + qs.other_discount)
    roundoff := qs.roundoff
    tcs := qs.tcs
    tds := -qs.tds }

/-- The five discount subtypes and their values on a register row, in the
order the discount-emission generator enumerates them. -/
def discountFields (qs : RegRow) : List (String × Rat) :=
  [("btpr", qs.btpr), ("outpyt", qs.outpyt), ("ushop", qs.ushop),
   ("pecom", qs.pecom), ("other_discount", qs.other_discount)]

/-- The `models.Discount(...)` items generated for one register row: one per
discount subtype with a non-zero value, with the value negated. -/
def discountItems (company : String) (qs : RegRow) : List DiscountRow :=
  (discountFields qs).filterMap fun p =>
    if p.2 ≠ 0 then some ⟨company, qs.inum, p.1, -p.2⟩ else none

/-- The `exclude(btpr=0, outpyt=0, ushop=0, pecom=0, other_discount=0)`
re-selection of the plain sales rows before discount emission. -/
def excludeAllZeroDiscount (rows : List RegRow) : List RegRow :=
  rows.filter fun r =>
    !decide (r.btpr = 0 ∧ r.outpyt = 0 ∧ r.ushop = 0 ∧ r.pecom = 0 ∧
             r.other_discount = 0)

/-- The `models.Inventory(...)` constructor call of the inventory-emission
generator. -/
def mkInvItem (company : String) (qs : InvRow) : InvItem :=
  { company := company
    bill_id := qs.inum
    stock_id := qs.stock_id
    qty := qs.qty
    rt := qs.rt
    txval := qs.txval }

/-- The transform of `SalesImport.run_atomic` applied to already-selected
register and inventory rows: returns the ledger, discount and inventory rows
to bulk-insert, or the exception that aborts the transaction. -/
def salesImportCore (company : String) (regRows : List RegRow)
    (invRows : List InvRow) :
    Except String (List SalesRow × List DiscountRow × List InvItem) :=
  let salesObjs := regRows.filter fun r => decide (r.type = "sales")
  let salesInvObjs := invRows.filter fun r => decide (r.type = "sales")
  let srRegSorted := sortBy (fun a b => decide (a.amt ≤ b.amt))
    (regRows.filter fun r => decide (r.type = "salesreturn"))
  let srInvSorted := sortBy (fun a b => decide (a.inv_amt ≤ b.inv_amt))
    (invRows.filter fun r => decide (r.type = "salesreturn"))
  let srInvMutated := srInvSorted.map flipInvReturn
  let queues := buildQueues srInvSorted
  let csInvObjs := invRows.filter fun r => decide (r.type = "claimservice")
  let csObjs := claimserviceObjs company csInvObjs
  match matchReturns queues srRegSorted with
  | .error e => .error e
  | .ok srMatched =>
    let registerObjs := salesObjs ++ srMatched ++ csObjs
    let ledger := registerObjs.map (mkSalesEntry company)
    let discountSrc := excludeAllZeroDiscount salesObjs ++ srMatched ++ csObjs
    let discounts := discountSrc.flatMap (discountItems company)
    let invStream := salesInvObjs ++ srInvMutated ++ csInvObjs
    let invItems := invStream.map (mkInvItem company)
    .ok (ledger, discounts, invItems)

/-- The transform of `SalesImport.run_atomic`: select the company's report
rows in the date range, then run the transform on them. -/
def salesImportTransform (company : String) (fromd tod : Nat)
    (regRows : List RegRow) (invRows : List InvRow) :
    Except String (List SalesRow × List DiscountRow × List InvItem) :=
  salesImportCore company (regSelect company fromd tod regRows)
    (invSelect company fromd tod invRows)

/-- Rows targeted by `SalesImport.delete_before_insert`: the company's ledger
rows in the date range whose type is one of the three sales types. -/
def salesDoomed (company : String) (fromd tod : Nat) (s : SalesRow) : Bool :=
  decide (s.company = company ∧ fromd ≤ s.date ∧ s.date ≤ tod ∧
          s.type ∈ salesTypes)

/-- Modelled from the spec: `SalesImport.delete_before_insert` deletes the
company's ledger rows of the three sales types in the date range; the
framework comment calls this a cascading delete, and `app/models.py` (not part
of the sources here) keys `Discount` and `Inventory` rows to a ledger row by
bill number, so the children of a deleted ledger row are deleted with it. -/
def salesDeleteBeforeInsert (company : String) (fromd tod : Nat) (db : DB) : DB :=
  let doomedInums := (db.sales.filter (salesDoomed company fromd tod)).map
    fun s => s.inum
  { db with
    sales := db.sales.filter fun s => !salesDoomed company fromd tod s
    discounts := db.discounts.filter fun d =>
      !decide (d.company = company ∧ d.bill_id ∈ doomedInums)
    inventory := db.inventory.filter fun i =>
      !decide (i.company = company ∧ i.bill_id ∈ doomedInums) }

/-- Modelled from the spec: the `@transaction.atomic` decorator (Django, not
part of these sources) commits the new state when the body succeeds and rolls
the whole transaction back — returning the store to its prior state — when
the body raises, re-raising the exception to the caller. -/
def atomicRun (f : DB → Except String DB) (db : DB) : DB × Option String :=
  match f db with
  | .ok db2 => (db2, none)
  | .error e => (db, some e)

/-- Body of `SalesImport.run_atomic`: delete-before-insert, transform, then
bulk-insert the three output streams. -/
def salesRunAtomicBody (company : String) (fromd tod : Nat)
    (regRows : List RegRow) (invRows : List InvRow) (db : DB) :
    Except String DB :=
  let db1 := salesDeleteBeforeInsert company fromd tod db
  match salesImportTransform company fromd tod regRows invRows with
  | .error e => .error e
  | .ok (ledger, discounts, invItems) =>
    .ok { db1 with
      sales := db1.sales ++ ledger
      discounts := db1.discounts ++ discounts
      inventory := db1.inventory ++ invItems }

/-- `SalesImport.run_atomic` over the store: the body wrapped in
`transaction.atomic`. -/
def salesRunAtomic (company : String) (fromd tod : Nat)
    (regRows : List RegRow) (invRows : List InvRow) (db : DB) :
    DB × Option String :=
  atomicRun (salesRunAtomicBody company fromd tod regRows invRows) db

/-- The `stock_rt_subquery`: the rate of the first stock-master row of the
company with the given name (`values("rt")[:1]`), if any. -/
def stockRtLookup (db : DB) (company stock_id : String) : Option Rat :=
  (db.stock.find? fun s => decide (s.company = company ∧ s.name = stock_id)).map
    fun s => s.rt

/-- The `party_ctin_subquery`: the ctin of the company's latest-dated ledger
row for the party (`order_by("-date").values("ctin")[:1]`). -/
def ctinLookup (db : DB) (company party : String) : Option String :=
  ((sortBy (fun a b => decide (b.date ≤ a.date))
      (db.sales.filter fun s => decide (s.company = company ∧ s.party_id = party))).head?).bind
    fun s => s.ctin

/-- Python's `x or None` on an optional string: an absent or empty (falsy)
value becomes `None`. -/
def pyOrNone : Option String → Option String
  | some "" => none
  | o => o

/-- Half-even rounding of a rational (Python's `round`). -/
def roundHalfEven (x : Rat) : Int :=
  if x - Int.floor x < 1 / 2 then Int.floor x
  else if 1 / 2 < x - Int.floor x then Int.floor x + 1
  else if Int.floor x % 2 = 0 then Int.floor x else Int.floor x + 1

/-- Rounding to 3 decimal places, `round(x, 3)`. -/
def round3 (x : Rat) : Rat :=
  (roundHalfEven (x * 1000) : Rat) / 1000

/-- The taxable-value computation of `MarketReturnImport.run_atomic`:
`round((float(mr.amt) * 100 / (100 + 2 * float(rt))), 3) if rt else 0`
(float arithmetic idealised as exact rational arithmetic). -/
def txvalCalc (amt rt : Rat) : Rat :=
  if rt = 0 then 0 else round3 (amt * 100 / (100 + 2 * rt))

/-- Modelled from the spec (for refinement comparison only): the spec's
formula "taxable value = amount × 100 / (100 + 2×rate), rounded to 3 decimal
places", with no special case. -/
def specTxval (amt rt : Rat) : Rat :=
  round3 (amt * 100 / (100 + 2 * rt))

/-- The `market_returns` queryset: `DmgShtReport` rows with
`return_from="market"` for the company.  No date filter appears in
`MarketReturnImport.run_atomic`. -/
def marketSelect (company : String) (rows : List DmgRow) : List DmgRow :=
  rows.filter fun r => decide (r.return_from = "market" ∧ r.company = company)

/-- Add `mr.amt` to the ledger object accumulated for `mr.inum`
(`sales_objects[mr.inum].amt += mr.amt`). -/
def bumpAmt (inum : String) (amt : Rat) :
    List (String × SalesRow) → List (String × SalesRow)
  | [] => []
  | (k, s) :: rest =>
    if k = inum then (k, { s with amt := s.amt + amt }) :: rest
    else (k, s) :: bumpAmt inum amt rest

/-- One iteration of the loop over `market_returns`: skip the row when the
stock-rate lookup fails, otherwise lazily create the per-invoice ledger
object, accumulate its amount, and append one inventory line item. -/
def marketStep (db : DB) (company : String)
    (acc : List (String × SalesRow) × List InvItem) (mr : DmgRow) :
    List (String × SalesRow) × List InvItem :=
  match stockRtLookup db company mr.stock_id with
  | none => acc
  | some rt =>
    let ctin := pyOrNone (ctinLookup db company mr.party_id)
    let txval := txvalCalc mr.amt rt
    let sobjs :=
      if (acc.1.lookup mr.inum).isSome then acc.1
      else acc.1 ++ [(mr.inum,
        { company := company, type := mr.type, inum := mr.inum,
          date := mr.date, party_id := mr.party_id, ctin := ctin, amt := 0 })]
    (bumpAmt mr.inum mr.amt sobjs,
     acc.2 ++ [{ company := company, bill_id := mr.inum,
                 stock_id := mr.stock_id, qty := mr.qty, rt := rt,
                 txval := txval }])

/-- The transform of `MarketReturnImport.run_atomic`: the ledger rows (one
per invoice, in first-seen order) and inventory rows (one per resolvable
source row) to bulk-insert. -/
def marketReturnTransform (db : DB) (company : String) (rows : List DmgRow) :
    List SalesRow × List InvItem :=
  let acc := (marketSelect company rows).foldl (marketStep db company) ([], [])
  (acc.1.map fun p => p.2, acc.2)

/-- `MarketReturnImport.delete_before_insert`: delete the company's damage
and shortage ledger rows in the date range.  Defined on the class but never
invoked by `MarketReturnImport.run_atomic`. -/
def marketDeleteBeforeInsert (company : String) (fromd tod : Nat) (db : DB) : DB :=
  { db with
    sales := db.sales.filter fun s =>
      !decide (s.company = company ∧ fromd ≤ s.date ∧ s.date ≤ tod ∧
               s.type ∈ ["damage", "shortage"]) }

/-- `MarketReturnImport.run_atomic` over the store: it performs no delete and
ignores the date-range argument entirely — the body only reads the
market-return report rows and bulk-inserts the transform's output. -/
def marketRunAtomic (company : String) (fromd tod : Nat) (rows : List DmgRow)
    (db : DB) : DB × Option String :=
  atomicRun
    (fun db0 =>
      let (ledger, invItems) := marketReturnTransform db0 company rows
      .ok { db0 with
        sales := db0.sales ++ ledger
        inventory := db0.inventory ++ invItems })
    db

/-! Example rows shared by the concrete witnesses below. -/

/-- Register-report example row; fields not under test are fixed. -/
def regRowEx (ty inum : String) (date : Nat) (amt : Rat) : RegRow :=
  { company := "C", type := ty, inum := inum, date := date, party_id := "P",
    ctin := none, amt := amt, btpr := 0, outpyt := 0, ushop := 0, pecom := 0,
    other_discount := 0, roundoff := 1, tcs := 0, tds := 0 }

/-- Inventory-report example row; fields not under test are fixed. -/
def invRowEx (ty inum : String) (date : Nat) (cn orig : String)
    (invAmt txval rt : Rat) : InvRow :=
  { company := "C", type := ty, inum := inum, date := date,
    credit_note_no := cn, original_invoice_no := orig, stock_id := "S",
    qty := 1, rt := rt, txval := txval, inv_amt := invAmt, ctin := none }

/-- Damage/shortage-report example row; fields not under test are fixed. -/
def dmgRowEx (inum : String) (date : Nat) (stock : String) (amt : Rat) : DmgRow :=
  { company := "C", return_from := "market", type := "damage", inum := inum,
    date := date, party_id := "P", stock_id := stock, qty := 1, amt := amt }

/-- Example sales row with every signed field non-zero: amount 100, the five
discount fields 1..5, roundoff 1, TCS 11, TDS 13. -/
def salesRowC4 : RegRow :=
  { regRowEx "sales" "B1" 5 100 with
    btpr := 1, outpyt := 2, ushop := 3,
    pecom := 4, other_discount := 5, tcs := 11, tds := 13 }

/-- Two claim-service rows for invoice "I1" with taxable values 100 and 200
at rate 5 % each. -/
def claimRows : List InvRow :=
  [invRowEx "claimservice" "I1" 3 "X" "Y" 0 100 5,
   invRowEx "claimservice" "I1" 3 "X" "Y" 0 200 5]

/-! Lemmas on the credit-note queues. -/

/-- A fold of `addInvToQueues` keeps every queue duplicate-free. -/
theorem foldl_addInvToQueues_nodup (rows : List InvRow)
    (m : Nat × String → List String) (hm : ∀ k, (m k).Nodup) (k : Nat × String) :
    ((rows.foldl addInvToQueues m) k).Nodup := by
  induction rows generalizing m with
  | nil => exact hm k
  | cons r rs ih =>
    refine ih (addInvToQueues m r) (fun k2 => ?_)
    unfold addInvToQueues
    split
    · split
      · exact hm _
      · next hmem =>
        rw [List.nodup_append]
        refine ⟨hm _, List.nodup_singleton _, fun x hx hy => ?_⟩
        rw [List.mem_singleton] at hy
        exact hmem (hy ▸ hx)
    · exact hm k2

/-- C10: each per-(date, original invoice) credit-note queue built by the
inventory-return loop contains every credit-note number at most once: only
the first inventory row carrying a given credit-note number appends a queue
entry, so a credit note can be popped by at most one register-side row. -/
theorem c10_queue_nodup (rows : List InvRow) (k : Nat × String) :
    (buildQueues rows k).Nodup ∧ ∀ cn, (buildQueues rows k).count cn ≤ 1 := by
  have h := foldl_addInvToQueues_nodup rows (fun _ => []) (fun _ => List.nodup_nil) k
  exact ⟨h, fun cn => List.nodup_iff_count_le_one.mp h cn⟩

/-! Lemmas on the register-return matching loop. -/

/-- Successful matching returns one row per input row. -/
theorem matchReturns_length (regs : List RegRow) (m : Nat × String → List String)
    (out : List RegRow) (h : matchReturns m regs = .ok out) :
    out.length = regs.length := by
  induction regs generalizing m out with
  | nil =>
    simp only [matchReturns, Except.ok.injEq] at h
    simp [← h]
  | cons r rs ih =>
    simp only [matchReturns] at h
    split at h
    · exact absurd h (by simp)
    · next cn rest hq =>
      split at h
      · next out2 hrec =>
        simp only [Except.ok.injEq] at h
        rw [← h]
        simp [ih (fun k => if k = (r.date, r.inum) then rest else m k) out2 hrec]
      · exact absurd h (by simp)

/-- C5: in the return-matching loop, when the register-side return rows (in
the order they are processed, ascending register amount) are matched against
the per-(date, invoice) credit-note queues (built in ascending inventory
amount order), the row at position i, whose key is K = (date, invoice
number), receives the credit note at position "number of earlier register
rows with key K" of K's initial queue — i.e. the oldest credit note not yet
consumed by an earlier register row for that key. -/
theorem c5_fifo (regs : List RegRow) (m : Nat × String → List String)
    (out : List RegRow) (h : matchReturns m regs = .ok out)
    (i : Nat) (hi : i < regs.length) :
    (out.map fun r => r.inum)[i]? =
      (m ((regs.get ⟨i, hi⟩).date, (regs.get ⟨i, hi⟩).inum))[
        (regs.take i).countP fun s =>
          decide (s.date = (regs.get ⟨i, hi⟩).date ∧
                  s.inum = (regs.get ⟨i, hi⟩).inum)]? := by
  induction regs generalizing m out i with
  | nil => exact absurd hi (by simp)
  | cons r rs ih =>
    simp only [matchReturns] at h
    split at h
    · exact absurd h (by simp)
    · next cn rest hq =>
      split at h
      · next out2 hrec =>
        simp only [Except.ok.injEq] at h
        rw [← h]
        cases i with
        | zero => simp [hq]
        | succ j =>
          have hj : j < rs.length := Nat.lt_of_succ_lt_succ hi
          have hget : (r :: rs).get ⟨j + 1, hi⟩ = rs.get ⟨j, hj⟩ := rfl
          rw [hget]
          have ihj := ih (fun k => if k = (r.date, r.inum) then rest else m k)
            out2 hrec j hj
          simp only [List.map_cons, List.getElem?_cons_succ,
            List.take_succ_cons, List.countP_cons]
          rw [ihj]
          by_cases hk : ((rs.get ⟨j, hj⟩).date, (rs.get ⟨j, hj⟩).inum) =
              (r.date, r.inum)
          · rw [if_pos hk, Prod.mk.injEq] at *
            have h1 : (rs.get ⟨j, hj⟩).date = r.date := hk.1
            have h2 : (rs.get ⟨j, hj⟩).inum = r.inum := hk.2
            have hpred : (decide ((r.date = (rs.get ⟨j, hj⟩).date ∧
                r.inum = (rs.get ⟨j, hj⟩).inum))) = true := by
              rw [decide_eq_true_eq]
              exact ⟨h1.symm, h2.symm⟩
            rw [hpred]
            rw [show ((rs.get ⟨j, hj⟩).date, (rs.get ⟨j, hj⟩).inum) =
              (r.date, r.inum) from Prod.ext h1 h2, hq]
            simp
          · rw [if_neg hk]
            have hpred : (decide ((r.date = (rs.get ⟨j, hj⟩).date ∧
                r.inum = (rs.get ⟨j, hj⟩).inum))) = false := by
              simp only [decide_eq_false_iff_not]
              rintro ⟨h1, h2⟩
              exact hk (Prod.ext h1.symm h2.symm)
            rw [hpred]
            simp
      · exact absurd h (by simp)

/-- Witness for C5 at the spec's example: register returns with amounts
[10, 20, 30] and credit notes CN1 (amount 5), CN2 (amount 15), CN3
(amount 40) for the same date and original invoice are paired CN1 with 10,
CN2 with 20, CN3 with 30. -/
theorem c5_fifo_witness :
    (matchReturns (buildQueues
        [invRowEx "salesreturn" "X1" 1 "CN1" "ORIG" 5 5 0,
         invRowEx "salesreturn" "X2" 1 "CN2" "ORIG" 15 15 0,
         invRowEx "salesreturn" "X3" 1 "CN3" "ORIG" 40 40 0])
       [regRowEx "salesreturn" "ORIG" 1 10,
        regRowEx "salesreturn" "ORIG" 1 20,
        regRowEx "salesreturn" "ORIG" 1 30] =
      .ok [{ regRowEx "salesreturn" "ORIG" 1 10 with roundoff := -1, inum := "CN1" },
           { regRowEx "salesreturn" "ORIG" 1 20 with roundoff := -1, inum := "CN2" },
           { regRowEx "salesreturn" "ORIG" 1 30 with roundoff := -1, inum := "CN3" }]) ∧
    (([{ regRowEx "salesreturn" "ORIG" 1 10 with roundoff := -1, inum := "CN1" },
        { regRowEx "salesreturn" "ORIG" 1 20 with roundoff := -1, inum := "CN2" },
        { regRowEx "salesreturn" "ORIG" 1 30 with roundoff := -1, inum := "CN3" }].map
          fun r => r.inum)[0]? = some "CN1") ∧
    (([{ regRowEx "salesreturn" "ORIG" 1 10 with roundoff := -1, inum := "CN1" },
        { regRowEx "salesreturn" "ORIG" 1 20 with roundoff := -1, inum := "CN2" },
        { regRowEx "salesreturn" "ORIG" 1 30 with roundoff := -1, inum := "CN3" }].map
          fun r => r.inum)[1]? = some "CN2") ∧
    (([{ regRowEx "salesreturn" "ORIG" 1 10 with roundoff := -1, inum := "CN1" },
        { regRowEx "salesreturn" "ORIG" 1 20 with roundoff := -1, inum := "CN2" },
        { regRowEx "salesreturn" "ORIG" 1 30 with roundoff := -1, inum := "CN3" }].map
          fun r => r.inum)[2]? = some "CN3") := by
  have hA : matchReturns (buildQueues
        [invRowEx "salesreturn" "X1" 1 "CN1" "ORIG" 5 5 0,
         invRowEx "salesreturn" "X2" 1 "CN2" "ORIG" 15 15 0,
         invRowEx "salesreturn" "X3" 1 "CN3" "ORIG" 40 40 0])
       [regRowEx "salesreturn" "ORIG" 1 10,
        regRowEx "salesreturn" "ORIG" 1 20,
        regRowEx "salesreturn" "ORIG" 1 30] =
      .ok [{ regRowEx "salesreturn" "ORIG" 1 10 with roundoff := -1, inum := "CN1" },
           { regRowEx "salesreturn" "ORIG" 1 20 with roundoff := -1, inum := "CN2" },
           { regRowEx "salesreturn" "ORIG" 1 30 with roundoff := -1, inum := "CN3" }] := by
    rfl
  refine ⟨hA, ?_, ?_, ?_⟩
  · exact (c5_fifo _ _ _ hA 0 (by decide)).trans (by decide)
  · exact (c5_fifo _ _ _ hA 1 (by decide)).trans (by decide)
  · exact (c5_fifo _ _ _ hA 2 (by decide)).trans (by decide)

/-- C1 (code bug): for a register-side sales-return row whose (date, invoice
number) queue of credit notes is empty, the transform does not emit the
row's ledger entry with an unresolved invoice number — after printing the
diagnostic it still executes `inums.pop(0)` on the empty queue, which raises
IndexError and aborts the whole transform. -/
theorem c1_empty_queue_aborts :
    salesImportTransform "C" 1 31 [regRowEx "salesreturn" "B1" 5 100] [] =
      .error "IndexError: pop from empty list" := by
  rfl

/-- C4: the ledger entry emitted for a register row with amount A, discount
fields summing to D, roundoff R, TDS T and TCS C has amount = -A,
discount = -D, tds = -T, tcs = C, and roundoff = R for a non-return row;
a return row has its roundoff negated by the matching loop before emission,
so its ledger entry carries roundoff = -R.  The last conjunct checks the
sales path end to end: a single in-range row of type "sales" produces
exactly its `mkSalesEntry` ledger row. -/
theorem c4_sign_roundtrip (company : String) (r : RegRow) :
    ((mkSalesEntry company r).amt = -r.amt) ∧
    ((mkSalesEntry company r).discount =
      -(r.btpr + r.outpyt + r.ushop + r.pecom + r.other_discount)) ∧
    ((mkSalesEntry company r).tds = -r.tds) ∧
    ((mkSalesEntry company r).tcs = r.tcs) ∧
    ((mkSalesEntry company r).roundoff = r.roundoff) ∧
    (∀ m out, matchReturns m [r] = .ok out →
      out.map (fun s => (mkSalesEntry company s).roundoff) = [-r.roundoff]) ∧
    (∀ fromd tod, r.company = company → fromd ≤ r.date → r.date ≤ tod →
      r.type = "sales" → ∀ ledger ds invs,
        salesImportTransform company fromd tod [r] [] = .ok (ledger, ds, invs) →
        ledger = [mkSalesEntry company r]) := by
  refine ⟨rfl, rfl, rfl, rfl, rfl, ?_, ?_⟩
  · intro m out h
    simp only [matchReturns] at h
    split at h
    · exact absurd h (by simp)
    · next cn rest hq =>
      simp only [Except.ok.injEq] at h
      rw [← h]
      simp [mkSalesEntry]
  · intro fromd tod hc hd1 hd2 ht ledger ds invs hres
    have e1 : (decide (r.company = company ∧ fromd ≤ r.date ∧ r.date ≤ tod)) =
        true := by simp [hc, hd1, hd2]
    have e2 : (decide (r.type = "sales")) = true := by simp [ht]
    have e3 : (decide (r.type = "salesreturn")) = false := by simp [ht]
    have e4 : (decide (r.type = "claimservice")) = false := by simp [ht]
    simp [salesImportTransform, salesImportCore, regSelect, invSelect,
      List.filter_cons, e1, e2, e3, e4, hc, hd1, hd2, ht, sortBy, buildQueues,
      matchReturns, claimserviceObjs, distinctByInum, distinctByInumAux,
      excludeAllZeroDiscount] at hres
    exact hres.1.symm

/-- Witness for C4 at a concrete row: A = 100, the five discount fields sum
to 15, R = 1, T = 13, C = 11; the return path flips the roundoff. -/
theorem c4_sign_roundtrip_witness :
    ((mkSalesEntry "C" salesRowC4).amt = -100) ∧
    ((mkSalesEntry "C" salesRowC4).discount = -15) ∧
    ((mkSalesEntry "C" salesRowC4).tds = -13) ∧
    ((mkSalesEntry "C" salesRowC4).tcs = 11) ∧
    ((mkSalesEntry "C" salesRowC4).roundoff = 1) ∧
    (([{ regRowEx "salesreturn" "B2" 5 50 with roundoff := -1, inum := "CN9" }].map
        fun s => (mkSalesEntry "C" s).roundoff) = [-(1 : Rat)]) ∧
    ([(⟨"C", "sales", "B1", 5, "P", none, -100, -15, 1, 11, -13⟩ : SalesRow)] =
      [mkSalesEntry "C" salesRowC4]) := by
  obtain ⟨h1, h2, h3, h4, h5, h6, h7⟩ := c4_sign_roundtrip "C" salesRowC4
  refine ⟨by decide, by norm_num [mkSalesEntry, salesRowC4, regRowEx],
    by decide, by decide, by decide, ?_, ?_⟩
  · exact (c4_sign_roundtrip "C" (regRowEx "salesreturn" "B2" 5 50)).2.2.2.2.2.1
      (fun _ => ["CN9"])
      [{ regRowEx "salesreturn" "B2" 5 50 with roundoff := -1, inum := "CN9" }] rfl
  · have hres : salesImportTransform "C" 1 31 [salesRowC4] [] =
        .ok ([(⟨"C", "sales", "B1", 5, "P", none, -100, -15, 1, 11, -13⟩ : SalesRow)],
             [⟨"C", "B1", "btpr", -1⟩, ⟨"C", "B1", "outpyt", -2⟩,
              ⟨"C", "B1", "ushop", -3⟩, ⟨"C", "B1", "pecom", -4⟩,
              ⟨"C", "B1", "other_discount", -5⟩], []) := by
      norm_num [salesImportTransform, salesImportCore, regSelect, invSelect,
        sortBy, insertSorted, buildQueues, matchReturns, claimserviceObjs,
        distinctByInum, distinctByInumAux, excludeAllZeroDiscount,
        mkSalesEntry, discountItems, discountFields, salesRowC4, regRowEx,
        List.filterMap_cons, List.filterMap_nil]
    exact h7 1 31 rfl (by decide) (by decide) rfl _ _ _ hres

/-! Lemmas on the claim-service aggregation. -/

/-- The defaultdict accumulator is the sum of `f` over the rows with the
given invoice number. -/
theorem accumBy_eq_sum (f : InvRow → Rat) (rows : List InvRow) (i : String) :
    accumBy f rows i =
      ((rows.filter fun r => decide (r.inum = i)).map f).sum := by
  suffices h : ∀ (rows : List InvRow) (m : String → Rat),
      (rows.foldl (fun m r => fun i => if i = r.inum then m i + f r else m i) m) i =
        m i + ((rows.filter fun r => decide (r.inum = i)).map f).sum by
    simpa [accumBy] using h rows (fun _ => 0)
  intro rows
  induction rows with
  | nil => intro m; simp
  | cons r rs ih =>
    intro m
    rw [List.foldl_cons, ih, List.filter_cons]
    by_cases hi : r.inum = i
    · simp [hi, add_assoc]
    · simp [hi, Ne.symm hi]

/-- Filtering on a key value absent from the list yields nothing. -/
theorem filter_key_eq_nil {α β : Type} [DecidableEq β] (g : α → β) (i : β)
    (l : List α) (h : i ∉ l.map g) :
    l.filter (fun x => decide (g x = i)) = [] := by
  induction l with
  | nil => rfl
  | cons x xs ih =>
    simp only [List.map_cons, List.mem_cons, not_or] at h
    rw [List.filter_cons, if_neg ?hneg]
    case hneg =>
      simp only [decide_eq_true_eq]
      exact fun hh => h.1 hh.symm
    exact ih h.2

/-- Filtering a list whose key projections are duplicate-free on a present
key value yields exactly one element. -/
theorem filter_key_singleton {α β : Type} [DecidableEq β] (g : α → β) (i : β)
    (l : List α) (hnd : (l.map g).Nodup) (h : i ∈ l.map g) :
    ∃ x, l.filter (fun x => decide (g x = i)) = [x] ∧ g x = i := by
  induction l with
  | nil => exact absurd h (by simp)
  | cons x xs ih =>
    simp only [List.map_cons, List.nodup_cons] at hnd
    by_cases hx : g x = i
    · refine ⟨x, ?_, hx⟩
      rw [List.filter_cons, if_pos (by simp [hx]),
        filter_key_eq_nil g i xs (hx ▸ hnd.1)]
    · have hmem : i ∈ xs.map g := by
        rcases (List.mem_cons).mp h with h1 | h2
        · exact absurd h1.symm hx
        · exact h2
      obtain ⟨y, hy, hyg⟩ := ih hnd.2 hmem
      exact ⟨y, by rw [List.filter_cons, if_neg (by simp [hx]), hy], hyg⟩

/-- Invoice numbers surviving `distinctByInumAux` are those present in the
input and not in the seen set. -/
theorem distinctByInumAux_mem (rows : List InvRow) (seen : List String)
    (i : String) :
    i ∈ (distinctByInumAux seen rows).map (fun r => r.inum) ↔
      i ∉ seen ∧ i ∈ rows.map (fun r => r.inum) := by
  induction rows generalizing seen with
  | nil => simp [distinctByInumAux]
  | cons r rs ih =>
    by_cases hr : r.inum ∈ seen
    · rw [distinctByInumAux, if_pos hr, ih, List.map_cons]
      constructor
      · rintro ⟨h1, h2⟩
        exact ⟨h1, List.mem_cons_of_mem _ h2⟩
      · rintro ⟨h1, h2⟩
        refine ⟨h1, ?_⟩
        rcases List.mem_cons.mp h2 with h3 | h4
        · exact absurd (by rw [← h3] at hr; exact hr) h1
        · exact h4
    · rw [distinctByInumAux, if_neg hr, List.map_cons, List.map_cons]
      constructor
      · intro hm
        rcases List.mem_cons.mp hm with h1 | h2
        · exact ⟨by rw [h1]; exact hr, List.mem_cons.mpr (Or.inl h1)⟩
        · obtain ⟨h3, h4⟩ := (ih (r.inum :: seen)).mp h2
          exact ⟨fun hh => h3 (List.mem_cons_of_mem _ hh),
            List.mem_cons_of_mem _ h4⟩
      · rintro ⟨h1, h2⟩
        rcases List.mem_cons.mp h2 with h3 | h4
        · exact List.mem_cons.mpr (Or.inl h3)
        · by_cases h5 : i = r.inum
          · exact List.mem_cons.mpr (Or.inl h5)
          · refine List.mem_cons.mpr (Or.inr ((ih (r.inum :: seen)).mpr
              ⟨?_, h4⟩))
            intro hh
            rcases List.mem_cons.mp hh with h6 | h7
            · exact h5 h6
            · exact h1 h7

/-- The invoice numbers of the distinct representatives are duplicate-free. -/
theorem distinctByInumAux_nodup (rows : List InvRow) (seen : List String) :
    ((distinctByInumAux seen rows).map (fun r => r.inum)).Nodup := by
  induction rows generalizing seen with
  | nil => simp [distinctByInumAux]
  | cons r rs ih =>
    by_cases hr : r.inum ∈ seen
    · rw [distinctByInumAux, if_pos hr]; exact ih seen
    · rw [distinctByInumAux, if_neg hr]
      simp only [List.map_cons, List.nodup_cons]
      refine ⟨fun hmem => ?_, ih (r.inum :: seen)⟩
      exact ((distinctByInumAux_mem rs (r.inum :: seen) r.inum).mp hmem).1
        (List.mem_cons_self _ _)

/-- C6: for every invoice number appearing among the inventory claim-service
rows, exactly one synthetic ledger row is emitted for it, with taxable sum S
the sum of the group's taxable values, tax T the sum over the group of
2·txval·rate/100, TDS D = S·2/100, amount S + T − D, tds D, and the
counterparty fixed to the settlement party "HUL". -/
theorem c6_claimservice (company : String) (rows : List InvRow) (inum : String)
    (h : inum ∈ rows.map fun r => r.inum) :
    (((claimserviceObjs company rows).filter fun o => decide (o.inum = inum)).map
        (fun o => (o.amt, o.tds, o.party_id)) =
      [(claimTxval rows inum + claimTax rows inum -
          claimTxval rows inum * TDS_PERCENT / 100,
        claimTxval rows inum * TDS_PERCENT / 100, "HUL")]) ∧
    (claimTxval rows inum =
      ((rows.filter fun r => decide (r.inum = inum)).map fun r => r.txval).sum) ∧
    (claimTax rows inum =
      ((rows.filter fun r => decide (r.inum = inum)).map
        fun r => 2 * r.txval * r.rt / 100).sum) := by
  refine ⟨?_, accumBy_eq_sum _ rows inum, accumBy_eq_sum _ rows inum⟩
  have hmem : inum ∈ (distinctByInum rows).map (fun r => r.inum) :=
    (distinctByInumAux_mem rows [] inum).mpr ⟨by simp, h⟩
  obtain ⟨rep, hrep, hrepi⟩ := filter_key_singleton (fun r => r.inum) inum
    (distinctByInum rows) (distinctByInumAux_nodup rows []) hmem
  have hfm : (claimserviceObjs company rows).filter
      (fun o => decide (o.inum = inum)) =
      ((distinctByInum rows).filter fun r => decide (r.inum = inum)).map
        (mkClaimObj company rows) := by
    rw [claimserviceObjs, List.filter_map]
    rfl
  rw [hfm, hrep]
  simp [mkClaimObj, hrepi]

/-- Witness for C6 at the spec's example: two claim-service rows for invoice
"I1" with taxable values 100 and 200 at rate 5 % each yield exactly one
synthetic row with amount 300 + 30 − 6 = 324, TDS 6 and counterparty "HUL". -/
theorem c6_claimservice_witness :
    ((((claimserviceObjs "C" claimRows).filter fun o => decide (o.inum = "I1")).map
        (fun o => (o.amt, o.tds, o.party_id))) = [(324, 6, "HUL")]) ∧
    claimTxval claimRows "I1" = 300 ∧ claimTax claimRows "I1" = 30 := by
  obtain ⟨hA, hB, hC⟩ := c6_claimservice "C" claimRows "I1" (by decide)
  have hS : claimTxval claimRows "I1" = 300 := by
    rw [hB]
    norm_num [claimRows, invRowEx, List.filter_cons]
  have hT : claimTax claimRows "I1" = 30 := by
    rw [hC]
    norm_num [claimRows, invRowEx, List.filter_cons]
  refine ⟨?_, hS, hT⟩
  rw [hA, hS, hT]
  norm_num [TDS_PERCENT]

/-! Lemmas on discount emission. -/

/-- No discount item is generated for a subtype name absent from the
field list. -/
theorem discountItems_filter_absent (company inum : String)
    (t : List (String × Rat)) (d : String) (hd : d ∉ t.map Prod.fst) :
    ((t.filterMap fun p =>
        if p.2 ≠ 0 then some (⟨company, inum, p.1, -p.2⟩ : DiscountRow)
        else none).filter fun it => decide (it.sub_type = d)) = [] := by
  induction t with
  | nil => rfl
  | cons q t ih =>
    simp only [List.map_cons, List.mem_cons, not_or] at hd
    rw [List.filterMap_cons]
    by_cases hq : q.2 = 0
    · simp only [hq, ne_eq, not_true_eq_false, ite_false]
      exact ih hd.2
    · simp only [ne_eq, hq, not_false_eq_true, ite_true]
      rw [List.filter_cons, if_neg ?hneg]
      case hneg =>
        simp only [decide_eq_true_eq]
        exact fun hh => hd.1 hh.symm
      exact ih hd.2

/-- Filtering the generated discount items on one subtype of a
duplicate-free subtype/value list: exactly the one negated item when the
value is non-zero, nothing when it is zero. -/
theorem discountItems_filter_eq (company inum : String)
    (l : List (String × Rat)) (d : String) (v : Rat)
    (hnd : (l.map Prod.fst).Nodup) (h : (d, v) ∈ l) :
    ((l.filterMap fun p =>
        if p.2 ≠ 0 then some (⟨company, inum, p.1, -p.2⟩ : DiscountRow)
        else none).filter fun it => decide (it.sub_type = d)) =
      (if v = 0 then [] else [⟨company, inum, d, -v⟩]) := by
  induction l with
  | nil => exact absurd h (by simp)
  | cons p t ih =>
    simp only [List.map_cons, List.nodup_cons] at hnd
    rcases List.mem_cons.mp h with h1 | h2
    · cases h1.symm
      rw [List.filterMap_cons]
      by_cases hv : v = 0
      · simp only [hv, ne_eq, not_true_eq_false, ite_false, ite_true]
        exact discountItems_filter_absent company inum t d hnd.1
      · simp only [ne_eq, hv, not_false_eq_true, ite_true, ite_false]
        rw [List.filter_cons, if_pos (by simp),
          discountItems_filter_absent company inum t d hnd.1]
    · have hne : p.1 ≠ d := by
        intro hh
        exact hnd.1 (hh ▸ List.mem_map_of_mem Prod.fst h2)
      rw [List.filterMap_cons]
      by_cases hq : p.2 = 0
      · simp only [hq, ne_eq, not_true_eq_false, ite_false]
        exact ih hnd.2 h2
      · simp only [ne_eq, hq, not_false_eq_true, ite_true]
        rw [List.filter_cons, if_neg ?hneg2]
        case hneg2 =>
          simp only [decide_eq_true_eq]
          exact fun hh => hne hh
        exact ih hnd.2 h2

/-- C9: for any register row, the discount-emission generator produces, for
each discount subtype, exactly one DiscountLineItem with the negated value
when that subtype's value is non-zero, and none when it is zero; a row with
all five fields zero produces no items at all. -/
theorem c9_discount_zero_suppression (company : String) (r : RegRow)
    (d : String) (v : Rat) (h : (d, v) ∈ discountFields r) :
    (((discountItems company r).filter fun it => decide (it.sub_type = d)) =
      (if v = 0 then [] else [⟨company, r.inum, d, -v⟩])) ∧
    ((r.btpr = 0 ∧ r.outpyt = 0 ∧ r.ushop = 0 ∧ r.pecom = 0 ∧
      r.other_discount = 0) → discountItems company r = []) := by
  constructor
  · refine discountItems_filter_eq company r.inum (discountFields r) d v ?_ h
    rw [show (discountFields r).map Prod.fst =
      ["btpr", "outpyt", "ushop", "pecom", "other_discount"] from rfl]
    decide
  · rintro ⟨e1, e2, e3, e4, e5⟩
    simp [discountItems, discountFields, e1, e2, e3, e4, e5]

/-- Witness for C9: a row with only btpr = 7 non-zero produces exactly the
one item ("btpr", −7); a row with all five discount fields zero produces no
items. -/
theorem c9_discount_zero_suppression_witness :
    (((discountItems "C" { regRowEx "sales" "B9" 5 100 with btpr := 7 }).filter
        fun it => decide (it.sub_type = "btpr")) = [⟨"C", "B9", "btpr", -7⟩]) ∧
    (discountItems "C" { regRowEx "sales" "B9" 5 100 with btpr := 7 } =
      [⟨"C", "B9", "btpr", -7⟩]) ∧
    (discountItems "C" (regRowEx "sales" "B0" 5 100) = []) := by
  refine ⟨?_, by decide, ?_⟩
  · have h := (c9_discount_zero_suppression "C"
      { regRowEx "sales" "B9" 5 100 with btpr := 7 } "btpr" 7 (by decide)).1
    rw [h, if_neg (by decide)]
    rfl
  · exact (c9_discount_zero_suppression "C" (regRowEx "sales" "B0" 5 100)
      "btpr" 0 (by decide)).2 ⟨rfl, rfl, rfl, rfl, rfl⟩

/-! Claims on the market-return taxable-value computation. -/

/-- C7 counterexample: a market-return row with amount 50 whose looked-up
rate equals 0 gets taxable value 0 from the code (the `if rt else 0`
short-circuit evaluates the rate for truthiness), while the claim's formula
amount·100/(100+2·0) gives the amount 50; the full transform emits the
inventory line with taxable value 0. -/
theorem c7_rate_zero_counterexample :
    txvalCalc 50 0 = 0 ∧ specTxval 50 0 = 50 ∧ txvalCalc 50 0 ≠ 50 ∧
    (marketReturnTransform ⟨[], [], [], [⟨"C", "S0", 0⟩]⟩ "C"
        [dmgRowEx "M1" 5 "S0" 50]).2 =
      [⟨"C", "M1", "S0", 1, 0, 0⟩] := by
  refine ⟨rfl, ?_, by norm_num [txvalCalc], ?_⟩
  · norm_num [specTxval, round3, roundHalfEven]
  · rfl

/-- C7 amended: for a market-return row whose rate lookup succeeds, the
emitted inventory line's taxable value is `txvalCalc amt rt`; when the rate
is non-zero this equals the spec's formula amount·100/(100+2·rate) rounded
to 3 decimal places, but when the rate equals 0 the code short-circuits and
the taxable value is 0, not the amount. -/
theorem c7_taxable_value_amended (amt rt : Rat) :
    (rt ≠ 0 → txvalCalc amt rt = specTxval amt rt) ∧
    txvalCalc amt 0 = 0 ∧
    (∀ db company acc mr, stockRtLookup db company mr.stock_id = some rt →
      (marketStep db company acc mr).2 =
        acc.2 ++ [⟨company, mr.inum, mr.stock_id, mr.qty, rt,
          txvalCalc mr.amt rt⟩]) := by
  refine ⟨fun h => ?_, ?_, fun db company acc mr hlk => ?_⟩
  · rw [txvalCalc, if_neg h]
    rfl
  · rw [txvalCalc, if_pos rfl]
  · simp only [marketStep, hlk]

/-- Witness for C7's amended claim at amount 50: at rate 5 the code value
equals the spec formula and evaluates to 45.455 = 9091/200; at rate 0 it is
0; a concrete resolvable row emits exactly this taxable value. -/
theorem c7_taxable_value_amended_witness :
    (txvalCalc 50 5 = specTxval 50 5) ∧ (specTxval 50 5 = 9091 / 200) ∧
    (txvalCalc 50 0 = 0) ∧
    ((marketStep ⟨[], [], [], [⟨"C", "S1", 5⟩]⟩ "C" ([], [])
        (dmgRowEx "M1" 5 "S1" 50)).2 =
      [⟨"C", "M1", "S1", 1, 5, txvalCalc 50 5⟩]) := by
  obtain ⟨h1, h2, h3⟩ := c7_taxable_value_amended 50 5
  refine ⟨h1 (by norm_num), ?_, (c7_taxable_value_amended 50 0).2.1, ?_⟩
  · have hx : (50 * 100 / (100 + 2 * 5) * 1000 : ℚ) =
        ((500000 : ℕ) : ℚ) / ((11 : ℕ) : ℚ) := by norm_num
    norm_num [specTxval, round3, roundHalfEven, hx,
      Rat.floor_natCast_div_natCast]
  · have hh := h3 ⟨[], [], [], [⟨"C", "S1", 5⟩]⟩ "C" ([], [])
      (dmgRowEx "M1" 5 "S1" 50) rfl
    simpa [dmgRowEx] using hh

/-! Claims on date-range scoping of the transforms. -/

/-- C3 counterexample: with date range [10, 20], a market-return report row
dated 99 — outside the range — still contributes output: the
`MarketReturnImport.run_atomic` queryset filters only on
`return_from="market"` and the company, with no date condition, so the
transform emits the row's inventory line. -/
theorem c3_out_of_range_counterexample :
    (¬ (10 ≤ 99 ∧ 99 ≤ 20)) ∧
    ((marketRunAtomic "C" 10 20 [dmgRowEx "M9" 99 "S1" 50]
        ⟨[], [], [], [⟨"C", "S1", 5⟩]⟩).1.inventory =
      [⟨"C", "M9", "S1", 1, 5, txvalCalc 50 5⟩]) := by
  exact ⟨by decide, rfl⟩

/-- C3 amended: SalesImport's transform does read only the tenant's report
rows inside [fromd, tod]: every selected row is in range and of the tenant,
and appending an out-of-range row to either source report leaves the
transform's output unchanged.  MarketReturnImport, by contrast, reads the
tenant's market-return rows with no date constraint: its output is
independent of the range argument, and out-of-range rows contribute (see the
counterexample). -/
theorem c3_range_scoping_amended (company : String) (fromd tod : Nat) :
    (∀ regs r, r ∈ regSelect company fromd tod regs →
      r.company = company ∧ fromd ≤ r.date ∧ r.date ≤ tod) ∧
    (∀ invs r, r ∈ invSelect company fromd tod invs →
      r.company = company ∧ fromd ≤ r.date ∧ r.date ≤ tod) ∧
    (∀ regs invs r, ¬ (fromd ≤ r.date ∧ r.date ≤ tod) →
      salesImportTransform company fromd tod (regs ++ [r]) invs =
        salesImportTransform company fromd tod regs invs) ∧
    (∀ regs invs r, ¬ (fromd ≤ r.date ∧ r.date ≤ tod) →
      salesImportTransform company fromd tod regs (invs ++ [r]) =
        salesImportTransform company fromd tod regs invs) ∧
    (∀ rows db fromd2 tod2,
      marketRunAtomic company fromd tod rows db =
        marketRunAtomic company fromd2 tod2 rows db) := by
  refine ⟨?_, ?_, ?_, ?_, fun rows db fromd2 tod2 => rfl⟩
  · intro regs r hr
    have h2 := (List.mem_filter.mp hr).2
    simpa using h2
  · intro invs r hr
    have h2 := (List.mem_filter.mp hr).2
    simpa using h2
  · intro regs invs r hr
    have hsel : regSelect company fromd tod (regs ++ [r]) =
        regSelect company fromd tod regs := by
      rw [regSelect, regSelect, List.filter_append]
      have hfalse : (decide (r.company = company ∧ fromd ≤ r.date ∧
          r.date ≤ tod)) = false := by
        rw [decide_eq_false_iff_not]
        exact fun hh => hr ⟨hh.2.1, hh.2.2⟩
      rw [List.filter_cons, hfalse, List.filter_nil]
      simp
    rw [salesImportTransform, salesImportTransform, hsel]
  · intro regs invs r hr
    have hsel : invSelect company fromd tod (invs ++ [r]) =
        invSelect company fromd tod invs := by
      rw [invSelect, invSelect, List.filter_append]
      have hfalse : (decide (r.company = company ∧ fromd ≤ r.date ∧
          r.date ≤ tod)) = false := by
        rw [decide_eq_false_iff_not]
        exact fun hh => hr ⟨hh.2.1, hh.2.2⟩
      rw [List.filter_cons, hfalse, List.filter_nil]
      simp
    rw [salesImportTransform, salesImportTransform, hsel]

/-- Witness for C3's amended claim: an out-of-range (date 99 vs range
[10, 20]) register or inventory row leaves SalesImport's transform output
unchanged, while MarketReturnImport's result is the same under a completely
different range. -/
theorem c3_range_scoping_amended_witness :
    (¬ (10 ≤ 99 ∧ 99 ≤ 20)) ∧
    (salesImportTransform "C" 10 20 [regRowEx "sales" "B9" 99 100] [] =
      salesImportTransform "C" 10 20 [] []) ∧
    (salesImportTransform "C" 10 20 [] [invRowEx "sales" "B9" 99 "X" "Y" 1 1 5] =
      salesImportTransform "C" 10 20 [] []) ∧
    (marketRunAtomic "C" 10 20 [dmgRowEx "M9" 99 "S1" 50]
        ⟨[], [], [], [⟨"C", "S1", 5⟩]⟩ =
      marketRunAtomic "C" 0 0 [dmgRowEx "M9" 99 "S1" 50]
        ⟨[], [], [], [⟨"C", "S1", 5⟩]⟩) := by
  obtain ⟨h1, h2, h3, h4, h5⟩ := c3_range_scoping_amended "C" 10 20
  exact ⟨by decide, h3 [] [] _ (by decide), h4 [] [] _ (by decide),
    h5 _ _ 0 0⟩

/-! Claims on transactional behaviour. -/

/-- C8: when the delete/transform/insert body of `SalesImport.run_atomic`
fails, the surrounding transaction leaves the store exactly as it was before
the run — the delete-before-insert is rolled back too — and the failure is
surfaced to the caller as the run's error value. -/
theorem c8_rollback (company : String) (fromd tod : Nat)
    (regRows : List RegRow) (invRows : List InvRow) (db : DB) (e : String)
    (h : (salesRunAtomic company fromd tod regRows invRows db).2 = some e) :
    (salesRunAtomic company fromd tod regRows invRows db).1 = db := by
  unfold salesRunAtomic atomicRun at h ⊢
  cases hb : salesRunAtomicBody company fromd tod regRows invRows db with
  | ok db2 =>
    rw [hb] at h
    exact absurd h (by simp)
  | error e2 =>
    simp only [hb]

/-- Witness for C8: a register return with no matching credit note makes the
transform raise after the delete phase has already removed the range's
ledger row; the committed state is nevertheless the original one, and the
error is reported. -/
theorem c8_rollback_witness :
    ((salesRunAtomic "C" 1 31 [regRowEx "salesreturn" "B1" 5 100] []
        ⟨[⟨"C", "sales", "B7", 5, "P", none, 100, 0, 0, 0, 0⟩], [], [], []⟩).2 =
      some "IndexError: pop from empty list") ∧
    (salesDeleteBeforeInsert "C" 1 31
        ⟨[⟨"C", "sales", "B7", 5, "P", none, 100, 0, 0, 0, 0⟩], [], [], []⟩ =
      ⟨[], [], [], []⟩) ∧
    ((salesRunAtomic "C" 1 31 [regRowEx "salesreturn" "B1" 5 100] []
        ⟨[⟨"C", "sales", "B7", 5, "P", none, 100, 0, 0, 0, 0⟩], [], [], []⟩).1 =
      ⟨[⟨"C", "sales", "B7", 5, "P", none, 100, 0, 0, 0, 0⟩], [], [], []⟩) := by
  refine ⟨rfl, rfl, ?_⟩
  exact c8_rollback "C" 1 31 [regRowEx "salesreturn" "B1" 5 100] []
    ⟨[⟨"C", "sales", "B7", 5, "P", none, 100, 0, 0, 0, 0⟩], [], [], []⟩
    "IndexError: pop from empty list" rfl

/-- C2 (code bug): `MarketReturnImport.run_atomic` never invokes the
`delete_before_insert` it defines, so re-running it over the same range
duplicates the range's ledger rows instead of leaving them unchanged; had
the delete been called, it would have removed the first run's row. -/
theorem c2_market_rerun_duplicates :
    (((marketRunAtomic "C" 10 20 [dmgRowEx "M1" 15 "S1" 50]
        ⟨[], [], [], [⟨"C", "S1", 5⟩]⟩).1.sales.filter fun s =>
          decide (s.company = "C" ∧ 10 ≤ s.date ∧ s.date ≤ 20 ∧
            s.type ∈ ["damage", "shortage"])).length = 1) ∧
    (((marketRunAtomic "C" 10 20 [dmgRowEx "M1" 15 "S1" 50]
        (marketRunAtomic "C" 10 20 [dmgRowEx "M1" 15 "S1" 50]
          ⟨[], [], [], [⟨"C", "S1", 5⟩]⟩).1).1.sales.filter fun s =>
          decide (s.company = "C" ∧ 10 ≤ s.date ∧ s.date ≤ 20 ∧
            s.type ∈ ["damage", "shortage"])).length = 2) ∧
    ((marketDeleteBeforeInsert "C" 10 20
        (marketRunAtomic "C" 10 20 [dmgRowEx "M1" 15 "S1" 50]
          ⟨[], [], [], [⟨"C", "S1", 5⟩]⟩).1).sales = []) := by
  exact ⟨rfl, rfl, rfl⟩

end ErpImport
